import Mathlib

/-
Verification of the volume-scheduler scheduling framework
(`framework/interface.go`, the CycleState file and the runtime driver).

The Go code is shallowly embedded: statuses, the merge algorithm, the
per-cycle state container and the per-stage driver loops become pure Lean
functions; Go errors are modelled by their message strings; a Go `*Status`
that may be nil is `Option Status` (nil = `none`); Go maps keyed by plugin
or state-key names are association lists in encounter order (a Go map's
iteration order is unspecified, the list order stands for one encounter
order).  Plugins are opaque policy callbacks: each is modelled by its name
together with the value its stage callback returns for the cycle's fixed
arguments.
-/

set_option maxHeartbeats 1000000

namespace VolumeScheduler

/-- Status codes returned from plugins (the `Code` constants of
`framework/interface.go`). -/
inductive Code where
  | Success
  | Error
  | Unschedulable
  | Wait
  | Skip
deriving DecidableEq

/-- The `Status` struct of `framework/interface.go`: a code, reasons, an
optional underlying error (modelled by its message string) and the name of
the plugin it fails by. -/
structure Status where
  code : Code
  reasons : List String
  err : Option String
  pluginName : String
deriving DecidableEq

/-- Method `(*Status).Code()`: a nil receiver yields `Success`. -/
def statusCode : Option Status → Code
  | none => Code.Success
  | some s => s.code

/-- Method `(*Status).Message()`: the comma-joined reasons, empty for nil. -/
def statusMessage : Option Status → String
  | none => ""
  | some s => String.intercalate ", " s.reasons

/-- Method `(*Status).IsSuccess()`. -/
def statusIsSuccess (o : Option Status) : Bool :=
  decide (statusCode o = Code.Success)

/-- Method `(*Status).IsUnschedulable()`. -/
def statusIsUnschedulable (o : Option Status) : Bool :=
  decide (statusCode o = Code.Unschedulable)

/-- Message of the error produced by `(*Status).AsError()` on a non-success
status: the stored cause when present, otherwise `errors.New(s.Message())`. -/
def statusErrMsg (s : Status) : String :=
  s.err.getD (String.intercalate ", " s.reasons)

/-- Method `(*Status).AsError()`: nil for a success, otherwise the stored
error, or a fresh error carrying the concatenated reasons. -/
def statusAsError (o : Option Status) : Option String :=
  if statusIsSuccess o then none
  else
    match o with
    | none => none
    | some s => some (statusErrMsg s)

/-- Constructor `NewStatus`: for the `Error` code it additionally records
`errors.New(s.Message())` as the underlying error. -/
def NewStatus (code : Code) (reasons : List String) : Status :=
  let s : Status := { code := code, reasons := reasons, err := none, pluginName := "" }
  if code = Code.Error then { s with err := some (String.intercalate ", " reasons) } else s

/-- Constructor `AsStatus`: wraps an error (modelled by its message) into an
`Error`-coded status whose single reason is the error's message. -/
def AsStatus (msg : String) : Status :=
  { code := Code.Error, reasons := [msg], err := some msg, pluginName := "" }

/-- The `statusPrecedence` map.  It is a Go map whose lookups default to `0`
for codes that are absent (`Wait` and `Skip`). -/
def statusPrecedence : Code → Int
  | Code.Error => 2
  | Code.Unschedulable => 1
  | Code.Success => -1
  | _ => 0

/-- The `PluginToStatus` map, as an association list in encounter order.
All stored statuses are non-nil: `Merge` reads each member's `reasons`
field directly, which would dereference a nil pointer, and every value the
driver stores into such a map is non-nil. -/
abbrev PluginToStatus := List (String × Status)

/-- One iteration of the loop body of `PluginToStatus.Merge`: record the
cause of an `Error`-coded member, adopt code and plugin name of a member of
strictly higher precedence, and always append the member's reasons. -/
def mergeStep (final : Status) (e : String × Status) : Status :=
  let s := e.2
  let f1 := if s.code = Code.Error then { final with err := statusAsError (some s) } else final
  let f2 :=
    if statusPrecedence s.code > statusPrecedence f1.code then
      { f1 with code := s.code, pluginName := s.pluginName }
    else f1
  { f2 with reasons := f2.reasons ++ s.reasons }

/-- Method `PluginToStatus.Merge`: nil on an empty map, otherwise the fold
of `mergeStep` over the members starting from `NewStatus(Success)`. -/
def Merge (p : PluginToStatus) : Option Status :=
  if p.length = 0 then none
  else some (p.foldl mergeStep (NewStatus Code.Success []))

/-- Maximum of `statusPrecedence` over the members' codes, `-1` (the
precedence of `Success`) on the empty list. -/
def maxPrec : PluginToStatus → Int
  | [] => -1
  | e :: t => max (statusPrecedence e.2.code) (maxPrec t)

/-- Code and plugin name of the first member whose code's precedence equals
`m` (junk on a list with no such member). -/
def firstMax (m : Int) : PluginToStatus → Code × String
  | [] => (Code.Success, "")
  | e :: t =>
    if statusPrecedence e.2.code = m then (e.2.code, e.2.pluginName) else firstMax m t

/-- The `AsError` of the last `Error`-coded member, if any. -/
def lastErrCause : PluginToStatus → Option String
  | [] => none
  | e :: t =>
    match lastErrCause t with
    | some x => some x
    | none => if e.2.code = Code.Error then statusAsError (some e.2) else none

/-- Closed form of the status built by `Merge` on a non-empty map: the code
and plugin name of the first member attaining the maximal precedence (the
initial `Success` accumulator when every member is a success), every
member's reasons in encounter order, and the cause of the last
`Error`-coded member. -/
def mergeSpec (l : PluginToStatus) : Status :=
  { code := if maxPrec l > -1 then (firstMax (maxPrec l) l).1 else Code.Success
    reasons := (l.map fun e => e.2.reasons).flatten
    err := lastErrCause l
    pluginName := if maxPrec l > -1 then (firstMax (maxPrec l) l).2 else "" }

/-- The documented `Status` invariant: a success carries no reasons and no
error, a non-success carries at least one reason. -/
def statusInvariant (s : Status) : Prop :=
  (s.code = Code.Success → s.reasons = [] ∧ s.err = none) ∧
  (s.code ≠ Code.Success → s.reasons ≠ [])

instance (s : Status) : Decidable (statusInvariant s) := by
  unfold statusInvariant
  infer_instance

/-! ## CycleState

The per-cycle scratch container.  `StateData` values are opaque and
self-cloning; the payload type `α` stands for the dynamic data and the
`Clone` method of the stored values is passed explicitly as a function.
To make aliasing observable (does `Clone` share storage with the
original?), live `CycleState` objects are cells of an explicit heap and a
state is a reference (index) into it, so that mutating one state is a
`set` of its own cell only. -/

/-- The `StateKey` type of CycleState keys. -/
abbrev StateKey := String

/-- A Go `map[StateKey]StateData` as an association list with unique keys. -/
abbrev StateStorage (α : Type) := List (StateKey × α)

/-- Lookup in a storage map. -/
def mapRead {α : Type} : StateStorage α → StateKey → Option α
  | [], _ => none
  | e :: t, k => if e.1 = k then some e.2 else mapRead t k

/-- Upsert into a storage map (Go map assignment). -/
def mapWrite {α : Type} : StateStorage α → StateKey → α → StateStorage α
  | [], k, v => [(k, v)]
  | e :: t, k, v => if e.1 = k then (k, v) :: t else e :: mapWrite t k v

/-- The heap of live `CycleState` objects: cell `r` holds the `storage` map
of the state referenced by `r`. -/
structure CSHeap (α : Type) where
  cells : List (StateStorage α)

/-- The storage of the state referenced by `r`. -/
def getCell {α : Type} (h : CSHeap α) (r : Nat) : StateStorage α :=
  h.cells.getD r []

/-- Replace the storage of the state referenced by `r`. -/
def setCell {α : Type} (h : CSHeap α) (r : Nat) (c : StateStorage α) : CSHeap α :=
  { cells := h.cells.set r c }

/-- `NewCycleState`: allocate a fresh empty storage; returns the new heap
and the reference to the new state. -/
def NewCycleState {α : Type} (h : CSHeap α) : CSHeap α × Nat :=
  ({ cells := h.cells ++ [[]] }, h.cells.length)

/-- Method `CycleState.Write`: `c.storage[key] = val` under the lock. -/
def csWrite {α : Type} (h : CSHeap α) (r : Nat) (k : StateKey) (v : α) : CSHeap α :=
  setCell h r (mapWrite (getCell h r) k v)

/-- Method `CycleState.Read`: `none` models the `ErrNotFound` return. -/
def csRead {α : Type} (h : CSHeap α) (r : Nat) (k : StateKey) : Option α :=
  mapRead (getCell h r) k

/-- Method `CycleState.Clone`: allocate a new state via `NewCycleState` and
`copy.Write(k, v.Clone())` for every entry `(k, v)` of the original. -/
def csClone {α : Type} (cl : α → α) (h : CSHeap α) (r : Nat) : CSHeap α × Nat :=
  let p := NewCycleState h
  ((getCell h r).foldl (fun hh e => csWrite hh p.2 e.1 (cl e.2)) p.1, p.2)

/-! ## The framework driver -/

/-- A PreFilter plugin: its name and the status its `PreFilter` callback
returns for the cycle's fixed (ctx, state, volume) arguments. -/
structure PreFilterPlugin where
  name : String
  result : Option Status

/-- Message of `fmt.Errorf("running PreFilter plugin %q: %w", name, err)`. -/
def preFilterWrapMsg (name msg : String) : String :=
  "running PreFilter plugin \"" ++ name ++ "\": " ++ msg

/-- Method `Framework.RunPreFilterPlugins`: run the plugins in order; the
first non-success aborts, an Unschedulable status is returned after its
plugin name is set, any other non-success is wrapped by `AsStatus` and
attributed to the plugin; nil on an empty list or all successes. -/
def RunPreFilterPlugins : List PreFilterPlugin → Option Status
  | [] => none
  | pl :: rest =>
    match pl.result with
    | none => RunPreFilterPlugins rest
    | some s =>
      if s.code = Code.Success then RunPreFilterPlugins rest
      else
        let s1 : Status := { s with pluginName := pl.name }
        if s1.code = Code.Unschedulable then some s1
        else some { AsStatus (preFilterWrapMsg pl.name (statusErrMsg s1)) with pluginName := pl.name }

/-- A Filter plugin: its name and the status its `Filter` callback returns
for the cycle's fixed (ctx, state, volume, poolInfo) arguments. -/
structure FilterPlugin where
  name : String
  result : Option Status

/-- Message of `fmt.Errorf("running %q filter plugin: %w", name, err)`. -/
def filterWrapMsg (name msg : String) : String :=
  "running \"" ++ name ++ "\" filter plugin: " ++ msg

/-- The loop of `Framework.RunFilterPlugins` carrying the `statuses` map. -/
def filterLoop (statuses : PluginToStatus) : List FilterPlugin → PluginToStatus
  | [] => statuses
  | pl :: rest =>
    match pl.result with
    | none => filterLoop statuses rest
    | some s =>
      if s.code = Code.Success then filterLoop statuses rest
      else if s.code ≠ Code.Unschedulable then
        [(pl.name, { AsStatus (filterWrapMsg pl.name (statusErrMsg s)) with pluginName := pl.name })]
      else
        filterLoop (statuses ++ [(pl.name, { s with pluginName := pl.name })]) rest

/-- Method `Framework.RunFilterPlugins` for one candidate pool. -/
def RunFilterPlugins (ps : List FilterPlugin) : PluginToStatus :=
  filterLoop [] ps

/-- The entries `RunFilterPlugins` records when no plugin escalates: one
entry per Unschedulable plugin, in order, with the plugin name set. -/
def unschedEntries : List FilterPlugin → PluginToStatus
  | [] => []
  | pl :: rest =>
    match pl.result with
    | none => unschedEntries rest
    | some s =>
      if s.code = Code.Unschedulable then
        (pl.name, { s with pluginName := pl.name }) :: unschedEntries rest
      else unschedEntries rest

/-- A pool-and-score pair (`PoolScore`). -/
structure PoolScore where
  name : String
  score : Int
deriving DecidableEq

/-- `PoolScoreList`. -/
abbrev PoolScoreList := List PoolScore

/-- `PluginToPoolScores`, as an association list in encounter order. -/
abbrev PluginToPoolScores := List (String × PoolScoreList)

/-- A Score plugin: its name and its `Score` callback, mapping a pool name
to the returned score and status for the cycle's fixed arguments. -/
structure ScorePlugin where
  name : String
  score : String → Int × Option Status

/-- Method `Framework.RunScorePlugins` as the source actually is: it
allocates one zero-valued `PoolScoreList` per plugin (`make` with the pool
count) and immediately returns it together with a nil status.  The entire
scoring body, including every call of `Score` and the score range check,
is commented out in the source. -/
def RunScorePlugins (scorePlugins : List ScorePlugin) (pools : List String) :
    PluginToPoolScores × Option Status :=
  (scorePlugins.map fun pl => (pl.name, List.replicate pools.length { name := "", score := 0 }),
   none)

/-- A Reserve plugin: its name and the status its `Reserve` callback
returns for the cycle's fixed arguments.  `Unreserve` returns nothing; its
invocations are recorded as a trace of plugin names. -/
structure ReservePlugin where
  name : String
  reserveResult : Option Status

/-- Message of `fmt.Errorf("running Reserve plugin %q: %w", name, err)`. -/
def reserveWrapMsg (name msg : String) : String :=
  "running Reserve plugin \"" ++ name ++ "\": " ++ msg

/-- The `AsError` message of a status known to be non-success at the call
site (empty-string junk for nil, which those call sites never pass). -/
def optStatusErrMsg : Option Status → String
  | none => ""
  | some s => statusErrMsg s

/-- Method `Framework.RunReservePluginsReserve`: run `Reserve` in order,
stopping at the first non-success with a wrapped error; also returns the
trace of plugins whose `Reserve` was attempted, in execution order. -/
def RunReservePluginsReserve : List ReservePlugin → Option Status × List String
  | [] => (none, [])
  | pl :: rest =>
    if statusIsSuccess pl.reserveResult then
      let r := RunReservePluginsReserve rest
      (r.1, pl.name :: r.2)
    else
      (some (AsStatus (reserveWrapMsg pl.name (optStatusErrMsg pl.reserveResult))), [pl.name])

/-- The loop `for i := len(ps)-1; i >= 0; i--` of
`RunReservePluginsUnreserve`, counting down from `n` and recording the
name of each plugin whose `Unreserve` is invoked. -/
def unreserveCallsFrom (ps : List ReservePlugin) : Nat → List String
  | 0 => []
  | i + 1 => (ps.getD i { name := "", reserveResult := none }).name :: unreserveCallsFrom ps i

/-- Method `Framework.RunReservePluginsUnreserve`, as the trace of
`Unreserve` invocations: the full registered list, indexed from the back. -/
def RunReservePluginsUnreserve (ps : List ReservePlugin) : List String :=
  unreserveCallsFrom ps ps.length

/-- A Bind plugin: its name and the status its `Bind` callback returns for
the cycle's fixed arguments. -/
structure BindPlugin where
  name : String
  result : Option Status

/-- Message of `fmt.Errorf("running Bind plugin %q: %w", name, err)`. -/
def bindWrapMsg (name msg : String) : String :=
  "running Bind plugin \"" ++ name ++ "\": " ++ msg

/-- The guard `status != nil && status.Code() == Skip`. -/
def bindSkip : Option Status → Bool
  | none => false
  | some s => decide (s.code = Code.Skip)

/-- The error status `RunBindPlugins` builds for a non-Skip, non-success
plugin result (no plugin name is set on it; the wrapped message carries
the plugin's name). -/
def bindErrStatus (bp : BindPlugin) (o : Option Status) : Status :=
  AsStatus (bindWrapMsg bp.name (optStatusErrMsg o))

/-- The loop of `Framework.RunBindPlugins`, carrying the `status` loop
variable (last value seen, returned when every plugin skipped). -/
def bindLoop (prev : Option Status) : List BindPlugin → Option Status
  | [] => prev
  | bp :: rest =>
    let status := bp.result
    if bindSkip status then bindLoop status rest
    else if statusIsSuccess status then status
    else some (bindErrStatus bp status)

/-- Method `Framework.RunBindPlugins`: `NewStatus(Skip, "")` on an empty
plugin list, otherwise the loop over the plugins. -/
def RunBindPlugins (ps : List BindPlugin) : Option Status :=
  if ps.length = 0 then some (NewStatus Code.Skip [""])
  else bindLoop none ps

/-! ## Lemmas about the status model and `Merge` -/

theorem Status.ext_fields (s t : Status) (h1 : s.code = t.code) (h2 : s.reasons = t.reasons)
    (h3 : s.err = t.err) (h4 : s.pluginName = t.pluginName) : s = t := by
  cases s; cases t; simp_all

theorem neg_one_le_statusPrecedence (c : Code) : -1 ≤ statusPrecedence c := by
  cases c <;> decide

theorem statusPrecedence_eq_neg_one_iff (c : Code) :
    statusPrecedence c = -1 ↔ c = Code.Success := by
  cases c <;> decide

theorem neg_one_le_maxPrec (l : PluginToStatus) : -1 ≤ maxPrec l := by
  induction l with
  | nil => exact le_refl _
  | cons e t ih => exact le_trans ih (le_max_right _ _)

theorem statusPrecedence_le_maxPrec (l : PluginToStatus) (e : String × Status) (he : e ∈ l) :
    statusPrecedence e.2.code ≤ maxPrec l := by
  induction l with
  | nil => cases he
  | cons f t ih =>
    rcases List.mem_cons.mp he with h | h
    · subst h; exact le_max_left _ _
    · exact le_trans (ih h) (le_max_right _ _)

theorem maxPrec_attained (l : PluginToStatus) (h : l ≠ []) :
    ∃ e ∈ l, statusPrecedence e.2.code = maxPrec l := by
  induction l with
  | nil => cases h rfl
  | cons e t ih =>
    rcases eq_or_ne t [] with rfl | ht
    · refine ⟨e, List.mem_cons_self _ _, ?_⟩
      rw [maxPrec, maxPrec, max_eq_left (neg_one_le_statusPrecedence _)]
    · obtain ⟨f, hf, hfe⟩ := ih ht
      rcases le_total (maxPrec t) (statusPrecedence e.2.code) with hle | hle
      · exact ⟨e, List.mem_cons_self _ _, (max_eq_left hle).symm⟩
      · exact ⟨f, List.mem_cons_of_mem _ hf, hfe.trans (max_eq_right hle).symm⟩

theorem firstMax_attains (m : Int) (l : PluginToStatus)
    (h : ∃ e ∈ l, statusPrecedence e.2.code = m) :
    statusPrecedence (firstMax m l).1 = m := by
  induction l with
  | nil => obtain ⟨e, he, _⟩ := h; cases he
  | cons e t ih =>
    rw [firstMax]
    by_cases hc : statusPrecedence e.2.code = m
    · rw [if_pos hc]; exact hc
    · rw [if_neg hc]
      apply ih
      obtain ⟨f, hf, hfe⟩ := h
      rcases List.mem_cons.mp hf with rfl | hf'
      · exact absurd hfe hc
      · exact ⟨f, hf', hfe⟩

theorem mergeStep_spec (a : Status) (e : String × Status) :
    mergeStep a e =
      { code := if statusPrecedence e.2.code > statusPrecedence a.code then e.2.code else a.code
        reasons := a.reasons ++ e.2.reasons
        err := if e.2.code = Code.Error then statusAsError (some e.2) else a.err
        pluginName :=
          if statusPrecedence e.2.code > statusPrecedence a.code then e.2.pluginName
          else a.pluginName } := by
  unfold mergeStep
  by_cases h1 : e.2.code = Code.Error
  · by_cases h2 : statusPrecedence e.2.code > statusPrecedence a.code
    · simp only [if_pos h1]
      simp only [if_pos h2]
    · simp only [if_pos h1]
      simp only [if_neg h2]
  · by_cases h2 : statusPrecedence e.2.code > statusPrecedence a.code
    · simp only [if_neg h1]
      simp only [if_pos h2]
    · simp only [if_neg h1]
      simp only [if_neg h2]

theorem mergeFold_reasons (l : PluginToStatus) : ∀ a : Status,
    (l.foldl mergeStep a).reasons = a.reasons ++ (l.map fun e => e.2.reasons).flatten := by
  induction l with
  | nil => intro a; simp
  | cons e t ih =>
    intro a
    rw [List.foldl_cons, ih, mergeStep_spec]
    simp [List.append_assoc]

theorem mergeFold_err (l : PluginToStatus) : ∀ a : Status,
    (l.foldl mergeStep a).err = (lastErrCause l).elim a.err some := by
  induction l with
  | nil => intro a; simp [lastErrCause]
  | cons e t ih =>
    intro a
    rw [List.foldl_cons, ih, lastErrCause]
    cases h : lastErrCause t with
    | some x => simp
    | none =>
      rw [mergeStep_spec]
      by_cases he : e.2.code = Code.Error
      · simp only [if_pos he, Option.elim]
        have : statusAsError (some e.2) = some (statusErrMsg e.2) := by
          simp [statusAsError, statusIsSuccess, statusCode, he]
        rw [this]
      · simp [he, Option.elim]

theorem mergeFold_code_name (l : PluginToStatus) : ∀ a : Status,
    ((l.foldl mergeStep a).code, (l.foldl mergeStep a).pluginName) =
      if maxPrec l > statusPrecedence a.code then firstMax (maxPrec l) l
      else (a.code, a.pluginName) := by
  induction l with
  | nil =>
    intro a
    simp only [List.foldl_nil, maxPrec]
    rw [if_neg (not_lt.mpr (neg_one_le_statusPrecedence a.code))]
  | cons e t ih =>
    intro a
    rw [List.foldl_cons, ih, mergeStep_spec]
    dsimp only
    show _ = if max (statusPrecedence e.2.code) (maxPrec t) > statusPrecedence a.code then
        firstMax (max (statusPrecedence e.2.code) (maxPrec t)) (e :: t) else (a.code, a.pluginName)
    by_cases hpe : statusPrecedence e.2.code > statusPrecedence a.code
    · simp only [if_pos hpe]
      by_cases hM : maxPrec t > statusPrecedence e.2.code
      · rw [if_pos hM, max_eq_right hM.le,
          if_pos (lt_trans hpe hM), firstMax, if_neg (ne_of_lt hM)]
      · rw [if_neg hM, max_eq_left (not_lt.mp hM),
          if_pos hpe, firstMax, if_pos rfl]
    · simp only [if_neg hpe]
      have hq : statusPrecedence e.2.code ≤ statusPrecedence a.code := not_lt.mp hpe
      by_cases hM : maxPrec t > statusPrecedence a.code
      · rw [if_pos hM, max_eq_right (le_trans hq hM.le), if_pos hM, firstMax,
          if_neg (ne_of_lt (lt_of_le_of_lt hq hM))]
      · rw [if_neg hM, if_neg (not_lt.mpr (max_le hq (not_lt.mp hM)))]

theorem NewStatus_code (c : Code) (rs : List String) : (NewStatus c rs).code = c := by
  unfold NewStatus
  split <;> rfl

theorem NewStatus_reasons (c : Code) (rs : List String) : (NewStatus c rs).reasons = rs := by
  unfold NewStatus
  split <;> rfl

theorem NewStatus_err_of_ne (c : Code) (rs : List String) (h : c ≠ Code.Error) :
    (NewStatus c rs).err = none := by
  unfold NewStatus
  rw [if_neg h]

theorem NewStatus_success : NewStatus Code.Success [] =
    { code := Code.Success, reasons := [], err := none, pluginName := "" } := by
  decide

theorem merge_eq_mergeSpec (l : PluginToStatus) (h : l ≠ []) :
    Merge l = some (mergeSpec l) := by
  unfold Merge
  rw [if_neg (by simpa using h), NewStatus_success]
  congr 1
  have hc := mergeFold_code_name l
    { code := Code.Success, reasons := [], err := none, pluginName := "" }
  have hr := mergeFold_reasons l
    { code := Code.Success, reasons := [], err := none, pluginName := "" }
  have he := mergeFold_err l
    { code := Code.Success, reasons := [], err := none, pluginName := "" }
  apply Status.ext_fields
  · have h2 := congrArg Prod.fst hc
    simpa [mergeSpec, statusPrecedence, apply_ite Prod.fst] using h2
  · simpa [mergeSpec] using hr
  · rw [he]
    cases hec : lastErrCause l <;> simp [mergeSpec, hec]
  · have h2 := congrArg Prod.snd hc
    simpa [mergeSpec, statusPrecedence, apply_ite Prod.snd] using h2

theorem flatten_eq_nil_iff_all_nil {α : Type} (L : List (List α)) :
    L.flatten = [] ↔ ∀ x ∈ L, x = [] := by
  induction L with
  | nil => simp
  | cons x t ih => simp [List.append_eq_nil, ih]

theorem lastErrCause_eq_none (l : PluginToStatus) (h : ∀ e ∈ l, e.2.code ≠ Code.Error) :
    lastErrCause l = none := by
  induction l with
  | nil => rfl
  | cons e t ih =>
    rw [lastErrCause, ih fun f hf => h f (List.mem_cons_of_mem _ hf)]
    rw [if_neg (h e (List.mem_cons_self _ _))]

theorem maxPrec_eq_neg_one_all_success (l : PluginToStatus) (h : maxPrec l = -1) :
    ∀ e ∈ l, e.2.code = Code.Success := by
  intro e he
  have h1 := statusPrecedence_le_maxPrec l e he
  rw [h] at h1
  have h2 := neg_one_le_statusPrecedence e.2.code
  exact (statusPrecedence_eq_neg_one_iff _).mp (le_antisymm h1 h2)

/-! ## Claim theorems: status model and merge -/

/-- Claim C2, amended: for every non-empty `PluginToStatus` map, `Merge`
returns exactly `mergeSpec l`, whose code has the maximum precedence among
the inputs' codes under Error=2 > Unschedulable=1 > Wait/Skip=0 >
Success=-1, whose reasons are every input's reasons in encounter order,
whose underlying error is the `AsError` of the last `Error`-coded member,
and whose plugin name is that of the FIRST-seen member attaining the
maximal precedence (empty when every input is a success).  The frozen
claim said "last-seen highest-precedence contributor", but the code
replaces the attribution only on a strict precedence increase, so a later
member of equal (maximal) precedence never overwrites it. -/
theorem merge_monotone_c2 (l : PluginToStatus) (h : l ≠ []) :
    Merge l = some (mergeSpec l) ∧ statusPrecedence (mergeSpec l).code = maxPrec l := by
  refine ⟨merge_eq_mergeSpec l h, ?_⟩
  by_cases hM : maxPrec l > -1
  · have hcode : (mergeSpec l).code = (firstMax (maxPrec l) l).1 := by simp [mergeSpec, hM]
    rw [hcode]
    exact firstMax_attains _ _ (maxPrec_attained l h)
  · have h1 : maxPrec l = -1 := le_antisymm (not_lt.mp hM) (neg_one_le_maxPrec l)
    have hcode : (mergeSpec l).code = Code.Success := by simp [mergeSpec, hM]
    rw [hcode, h1]
    rfl

/-- Witness for C2 at a concrete one-member map. -/
theorem merge_monotone_c2_witness :
    Merge [("p", { code := Code.Unschedulable, reasons := ["r"], err := none, pluginName := "P" })]
        = some (mergeSpec
            [("p", { code := Code.Unschedulable, reasons := ["r"], err := none, pluginName := "P" })]) ∧
      statusPrecedence (mergeSpec
            [("p", { code := Code.Unschedulable, reasons := ["r"],
                     err := none, pluginName := "P" })]).code
        = maxPrec
            [("p", { code := Code.Unschedulable, reasons := ["r"], err := none, pluginName := "P" })] :=
  merge_monotone_c2 _ (by decide)

/-- Claim C2 as frozen is false: merging two `Error`-coded members named
"A" then "B", the merged status carries plugin name "A" — the first-seen
highest-precedence contributor — not "B", the last-seen one. -/
theorem merge_last_name_counterexample_c2 :
    (Merge [("pa", { code := Code.Error, reasons := ["ra"], err := none, pluginName := "A" }),
            ("pb", { code := Code.Error, reasons := ["rb"], err := none, pluginName := "B" })]).map
        Status.pluginName = some "A" ∧
      ¬ (Merge [("pa", { code := Code.Error, reasons := ["ra"], err := none, pluginName := "A" }),
            ("pb", { code := Code.Error, reasons := ["rb"], err := none, pluginName := "B" })]).map
          Status.pluginName = some "B" := by
  constructor
  · decide
  · decide

/-- Claim C10: `Merge` of an empty map returns nil, and by the
nil-is-success convention its `Code()` is `Success`, `IsSuccess()` is
true and `AsError()` is nil. -/
theorem merge_empty_c10 :
    Merge ([] : PluginToStatus) = none ∧
      statusCode (Merge []) = Code.Success ∧
      statusIsSuccess (Merge []) = true ∧
      statusAsError (Merge []) = none := by
  decide

/-- Claim C7: the `Code()` of a nil status is `Success`, its `IsSuccess()`
is true and its `AsError()` is nil; and for any status, `AsError()` is nil
exactly when the code is `Success`, and a non-success status yields the
stored cause when present, otherwise an error carrying the concatenated
reasons. -/
theorem status_nil_c7 (o : Option Status) (s : Status) (hs : s.code ≠ Code.Success) :
    statusCode none = Code.Success ∧
      statusIsSuccess none = true ∧
      statusAsError none = none ∧
      (statusAsError o = none ↔ statusCode o = Code.Success) ∧
      statusAsError (some s) = some (s.err.getD (String.intercalate ", " s.reasons)) := by
  refine ⟨rfl, rfl, rfl, ?_, ?_⟩
  · cases o with
    | none => simp [statusAsError, statusIsSuccess, statusCode]
    | some t =>
      by_cases ht : t.code = Code.Success <;>
        simp [statusAsError, statusIsSuccess, statusCode, ht]
  · simp [statusAsError, statusIsSuccess, statusCode, hs, statusErrMsg]

/-- Witness for C7 at a concrete non-success status. -/
theorem status_nil_c7_witness :
    statusCode none = Code.Success ∧
      statusIsSuccess none = true ∧
      statusAsError none = none ∧
      (statusAsError (some { code := Code.Error, reasons := ["m"], err := none, pluginName := "" })
          = none ↔
        statusCode (some { code := Code.Error, reasons := ["m"], err := none, pluginName := "" })
          = Code.Success) ∧
      statusAsError (some { code := Code.Error, reasons := ["m"], err := none, pluginName := "" })
        = some ((none : Option String).getD (String.intercalate ", " ["m"])) :=
  status_nil_c7
    (some { code := Code.Error, reasons := ["m"], err := none, pluginName := "" })
    { code := Code.Error, reasons := ["m"], err := none, pluginName := "" }
    (by decide)

/-- Claim C9, amended: `NewStatus` satisfies the documented invariant
whenever its arguments respect it (no reasons with `Success`, at least one
reason otherwise) — `NewStatus` itself guarantees the error field is empty
unless the code is `Error` — and `Merge` preserves the invariant: when
every member of the map satisfies it, so does the merged status.  The
frozen universal claim is false because neither operation enforces the
reason conditions on its inputs. -/
theorem status_invariant_c9 (c : Code) (reasons : List String) (l : PluginToStatus) (f : Status)
    (h1 : c = Code.Success → reasons = [])
    (h2 : c ≠ Code.Success → reasons ≠ [])
    (hl : ∀ e ∈ l, statusInvariant e.2)
    (hm : Merge l = some f) :
    statusInvariant (NewStatus c reasons) ∧ statusInvariant f := by
  constructor
  · refine ⟨fun h => ?_, fun h => ?_⟩
    · rw [NewStatus_code] at h
      refine ⟨?_, ?_⟩
      · rw [NewStatus_reasons]
        exact h1 h
      · exact NewStatus_err_of_ne c reasons (by rw [h]; decide)
    · rw [NewStatus_code] at h
      rw [NewStatus_reasons]
      exact h2 h
  · have hne : l ≠ [] := by
      intro hl0
      rw [hl0] at hm
      exact Option.noConfusion (hm.symm.trans rfl)
    have hf : f = mergeSpec l :=
      Option.some.inj (hm.symm.trans (merge_eq_mergeSpec l hne))
    subst hf
    by_cases hM : maxPrec l > -1
    · obtain ⟨e, he, hprec⟩ := maxPrec_attained l hne
      have hcode : (mergeSpec l).code = (firstMax (maxPrec l) l).1 := by simp [mergeSpec, hM]
      have hcs : (mergeSpec l).code ≠ Code.Success := by
        rw [hcode]
        intro hx
        have := firstMax_attains (maxPrec l) l ⟨e, he, hprec⟩
        rw [hx] at this
        have : maxPrec l = -1 := by
          have hps : statusPrecedence Code.Success = -1 := rfl
          rw [hps] at this
          exact this.symm
        omega
      refine ⟨fun hx => absurd hx hcs, fun _ => ?_⟩
      have hes : e.2.code ≠ Code.Success := by
        intro hx
        rw [hx] at hprec
        have hps : statusPrecedence Code.Success = -1 := rfl
        rw [hps] at hprec
        omega
      have hre : e.2.reasons ≠ [] := (hl e he).2 hes
      have hmem : e.2.reasons ∈ l.map fun g => g.2.reasons := List.mem_map_of_mem _ he
      intro hflat
      have hall := (flatten_eq_nil_iff_all_nil (l.map fun g => g.2.reasons)).mp (by
        simpa [mergeSpec] using hflat)
      exact hre (hall _ hmem)
    · have h0 : maxPrec l = -1 := le_antisymm (not_lt.mp hM) (neg_one_le_maxPrec l)
      have hall := maxPrec_eq_neg_one_all_success l h0
      have hcode : (mergeSpec l).code = Code.Success := by simp [mergeSpec, hM]
      refine ⟨fun _ => ⟨?_, ?_⟩, fun hx => absurd hcode hx⟩
      · show (l.map fun e => e.2.reasons).flatten = []
        apply (flatten_eq_nil_iff_all_nil _).mpr
        intro x hx
        obtain ⟨e, he, rfl⟩ := List.mem_map.mp hx
        exact ((hl e he).1 (hall e he)).1
      · show lastErrCause l = none
        apply lastErrCause_eq_none
        intro e he
        rw [hall e he]
        decide

/-- Witness for C9 at concrete arguments. -/
theorem status_invariant_c9_witness :
    statusInvariant (NewStatus Code.Unschedulable ["r"]) ∧
      statusInvariant (mergeSpec
        [("p", { code := Code.Unschedulable, reasons := ["r"], err := none, pluginName := "p" })]) :=
  status_invariant_c9 Code.Unschedulable ["r"]
    [("p", { code := Code.Unschedulable, reasons := ["r"], err := none, pluginName := "p" })]
    (mergeSpec
      [("p", { code := Code.Unschedulable, reasons := ["r"], err := none, pluginName := "p" })])
    (by decide) (by decide) (by decide)
    (merge_eq_mergeSpec _ (by decide))

/-- Claim C9 as frozen is false: `NewStatus(Error)` with no reasons is
produced by the framework's own constructor and has a non-success code
with an empty reasons list. -/
theorem new_status_counterexample_c9 : ¬ statusInvariant (NewStatus Code.Error []) := by
  decide

/-! ## Claim theorems: the driver -/

/-- Claim C1 records the intended scoring behaviour, but the source's
`RunScorePlugins` is a stub: its whole scoring body (every `Score` call,
normalization and the score range check) is commented out, contradicting
the function's own doc comment, which promises a non-success status when
a plugin fails.  Concretely, one plugin whose `Score` returns the
out-of-range 101 produces a zero-filled score list and a nil (Success)
status instead of an `Error`; and the result does not depend on the
`Score` callback at all. -/
theorem run_score_plugins_c1 :
    RunScorePlugins [{ name := "A", score := fun _ => (101, none) }] ["pool-1"]
        = ([("A", [{ name := "", score := 0 }])], none) ∧
      statusCode (RunScorePlugins [{ name := "A", score := fun _ => (101, none) }] ["pool-1"]).2
        = Code.Success ∧
      (∀ f g : String → Int × Option Status, ∀ pools : List String,
        RunScorePlugins [{ name := "A", score := f }] pools
          = RunScorePlugins [{ name := "A", score := g }] pools) :=
  ⟨rfl, rfl, fun _ _ _ => rfl⟩

theorem unreserveCallsFrom_take (ps : List ReservePlugin) :
    ∀ n, n ≤ ps.length →
      unreserveCallsFrom ps n = ((ps.take n).map fun p => p.name).reverse := by
  intro n
  induction n with
  | zero => intro _; rfl
  | succ j ih =>
    intro h
    have hj : j < ps.length := Nat.lt_of_succ_le h
    have hget : ps.getD j { name := "", reserveResult := none } = ps[j] := by
      simp [List.getD, List.getElem?_eq_getElem hj]
    rw [unreserveCallsFrom, ih (Nat.le_of_lt hj), hget, List.take_succ,
      List.getElem?_eq_getElem hj, List.map_append, List.reverse_append]
    rfl

theorem unreserve_calls_reverse (ps : List ReservePlugin) :
    RunReservePluginsUnreserve ps = (ps.map fun p => p.name).reverse := by
  unfold RunReservePluginsUnreserve
  rw [unreserveCallsFrom_take ps ps.length (le_refl _), List.take_length]

theorem reserve_trace_of_failure (good : List ReservePlugin) (bad : ReservePlugin)
    (rest : List ReservePlugin)
    (hg : ∀ p ∈ good, statusIsSuccess p.reserveResult = true)
    (hb : statusIsSuccess bad.reserveResult = false) :
    (RunReservePluginsReserve (good ++ bad :: rest)).2
      = (good.map fun p => p.name) ++ [bad.name] := by
  induction good with
  | nil =>
    simp only [List.nil_append, List.map_nil]
    rw [RunReservePluginsReserve, if_neg (by rw [hb]; exact Bool.false_ne_true)]
  | cons g t ih =>
    have hgs := hg g (List.mem_cons_self _ _)
    rw [List.cons_append, RunReservePluginsReserve, if_pos hgs]
    simp only [List.map_cons, List.cons_append]
    rw [ih fun p hp => hg p (List.mem_cons_of_mem _ hp)]

/-- Claim C3: `RunReservePluginsUnreserve` invokes `Unreserve` on the full
registered list in strictly reverse registration order; the trace depends
only on the registered names, so it is unaffected by how many `Reserve`
calls were actually attempted — in particular, when `Reserve` fails at
`bad` after succeeding on the prefix `good`, only `good ++ [bad]` was
attempted, yet the unreserve trace still covers every registered plugin
in reverse. -/
theorem unreserve_reverse_c3 (ps qs good rest : List ReservePlugin) (bad : ReservePlugin)
    (hnames : ps.map (fun p => p.name) = qs.map fun p => p.name)
    (hg : ∀ p ∈ good, statusIsSuccess p.reserveResult = true)
    (hb : statusIsSuccess bad.reserveResult = false) :
    RunReservePluginsUnreserve ps = (ps.map fun p => p.name).reverse ∧
      (RunReservePluginsUnreserve ps).length = ps.length ∧
      RunReservePluginsUnreserve ps = RunReservePluginsUnreserve qs ∧
      (RunReservePluginsReserve (good ++ bad :: rest)).2
          = (good.map fun p => p.name) ++ [bad.name] ∧
      RunReservePluginsUnreserve (good ++ bad :: rest)
          = ((good ++ bad :: rest).map fun p => p.name).reverse := by
  refine ⟨unreserve_calls_reverse ps, ?_, ?_, reserve_trace_of_failure good bad rest hg hb,
    unreserve_calls_reverse _⟩
  · rw [unreserve_calls_reverse]
    simp
  · rw [unreserve_calls_reverse, unreserve_calls_reverse, hnames]

/-- Witness for C3: plugins [A, B, C] where Reserve fails at C, against a
variant where Reserve would fail already at B; the unreserve trace is
[C, B, A] either way. -/
theorem unreserve_reverse_c3_witness :
    RunReservePluginsUnreserve
        [{ name := "A", reserveResult := none }, { name := "B", reserveResult := none },
         { name := "C",
           reserveResult := some { code := Code.Error, reasons := ["x"], err := none, pluginName := "" } }]
      = (([{ name := "A", reserveResult := none }, { name := "B", reserveResult := none },
          { name := "C",
            reserveResult := some { code := Code.Error, reasons := ["x"], err := none, pluginName := "" } }] :
            List ReservePlugin).map fun p => p.name).reverse ∧
    (RunReservePluginsUnreserve
        [{ name := "A", reserveResult := none }, { name := "B", reserveResult := none },
         { name := "C",
           reserveResult := some { code := Code.Error, reasons := ["x"], err := none, pluginName := "" } }]).length
      = ([{ name := "A", reserveResult := none }, { name := "B", reserveResult := none },
          { name := "C",
            reserveResult := some { code := Code.Error, reasons := ["x"], err := none, pluginName := "" } }] :
            List ReservePlugin).length ∧
    RunReservePluginsUnreserve
        [{ name := "A", reserveResult := none }, { name := "B", reserveResult := none },
         { name := "C",
           reserveResult := some { code := Code.Error, reasons := ["x"], err := none, pluginName := "" } }]
      = RunReservePluginsUnreserve
          [{ name := "A", reserveResult := none },
           { name := "B",
             reserveResult := some { code := Code.Error, reasons := ["x"], err := none, pluginName := "" } },
           { name := "C", reserveResult := none }] ∧
    (RunReservePluginsReserve
        ([{ name := "A", reserveResult := none }, { name := "B", reserveResult := none }] ++
          { name := "C",
            reserveResult := some { code := Code.Error, reasons := ["x"], err := none, pluginName := "" } } :: [])).2
      = (([{ name := "A", reserveResult := none }, { name := "B", reserveResult := none }] :
            List ReservePlugin).map fun p => p.name) ++ ["C"] ∧
    RunReservePluginsUnreserve
        ([{ name := "A", reserveResult := none }, { name := "B", reserveResult := none }] ++
          { name := "C",
            reserveResult := some { code := Code.Error, reasons := ["x"], err := none, pluginName := "" } } :: [])
      = ((([{ name := "A", reserveResult := none }, { name := "B", reserveResult := none }] ++
            { name := "C",
              reserveResult := some { code := Code.Error, reasons := ["x"], err := none, pluginName := "" } } :: []) :
            List ReservePlugin).map fun p => p.name).reverse :=
  unreserve_reverse_c3 _ _ _ _ _ (by decide) (by decide) (by decide)

theorem prefilter_skips_successes (pre : List PreFilterPlugin)
    (hpre : ∀ p ∈ pre, statusIsSuccess p.result = true) :
    ∀ ys, RunPreFilterPlugins (pre ++ ys) = RunPreFilterPlugins ys := by
  induction pre with
  | nil => intro ys; rfl
  | cons p t ih =>
    intro ys
    have hp := hpre p (List.mem_cons_self _ _)
    rw [List.cons_append]
    cases hr : p.result with
    | none => simp only [RunPreFilterPlugins, hr]; exact ih (fun q hq => hpre q (List.mem_cons_of_mem _ hq)) ys
    | some s =>
      have hs : s.code = Code.Success := by
        rw [hr] at hp
        exact of_decide_eq_true hp
      simp only [RunPreFilterPlugins, hr, if_pos hs]
      exact ih (fun q hq => hpre q (List.mem_cons_of_mem _ hq)) ys

/-- Claim C5, amended: `RunPreFilterPlugins` runs the plugins in
registration order and stops at the first non-success; an `Unschedulable`
status is returned with its code, reasons and error unchanged and only
its plugin name set to the failing plugin's name (the code calls
`SetPluginName` before returning, so the status is not returned literally
unmodified); any other non-success is wrapped by `AsStatus` into an
`Error` attributed to the plugin; an empty or all-success list yields
nil. -/
theorem run_prefilter_c5 (pre rest : List PreFilterPlugin) (u e : PreFilterPlugin)
    (su se : Status)
    (hpre : ∀ p ∈ pre, statusIsSuccess p.result = true)
    (hu : u.result = some su) (hsu : su.code = Code.Unschedulable)
    (he : e.result = some se) (hse1 : se.code ≠ Code.Success) (hse2 : se.code ≠ Code.Unschedulable) :
    RunPreFilterPlugins pre = none ∧
      RunPreFilterPlugins (pre ++ u :: rest) = some { su with pluginName := u.name } ∧
      RunPreFilterPlugins (pre ++ e :: rest)
          = some { AsStatus (preFilterWrapMsg e.name (statusErrMsg se)) with pluginName := e.name } ∧
      ({ AsStatus (preFilterWrapMsg e.name (statusErrMsg se)) with pluginName := e.name } : Status).code
        = Code.Error := by
  refine ⟨?_, ?_, ?_, rfl⟩
  · have h0 := prefilter_skips_successes pre hpre []
    rw [List.append_nil] at h0
    exact h0
  · rw [prefilter_skips_successes pre hpre]
    have hne : su.code ≠ Code.Success := by rw [hsu]; decide
    simp only [RunPreFilterPlugins, hu, if_neg hne]
    rw [if_pos hsu]
  · rw [prefilter_skips_successes pre hpre]
    simp only [RunPreFilterPlugins, he, if_neg hse1]
    rw [if_neg hse2]
    simp [statusErrMsg]

/-- Witness for C5 at concrete plugins. -/
theorem run_prefilter_c5_witness :
    RunPreFilterPlugins [] = none ∧
      RunPreFilterPlugins ([] ++ { name := "U", result := some { code := Code.Unschedulable, reasons := ["r"], err := none, pluginName := "" } } :: [])
        = some { code := Code.Unschedulable, reasons := ["r"], err := none, pluginName := "U" } ∧
      RunPreFilterPlugins ([] ++ { name := "E", result := some { code := Code.Wait, reasons := ["w"], err := none, pluginName := "" } } :: [])
        = some { AsStatus (preFilterWrapMsg "E" (statusErrMsg { code := Code.Wait, reasons := ["w"], err := none, pluginName := "" })) with pluginName := "E" } ∧
      ({ AsStatus (preFilterWrapMsg "E" (statusErrMsg { code := Code.Wait, reasons := ["w"], err := none, pluginName := "" })) with pluginName := "E" } : Status).code = Code.Error :=
  run_prefilter_c5 [] []
    { name := "U", result := some { code := Code.Unschedulable, reasons := ["r"], err := none, pluginName := "" } }
    { name := "E", result := some { code := Code.Wait, reasons := ["w"], err := none, pluginName := "" } }
    { code := Code.Unschedulable, reasons := ["r"], err := none, pluginName := "" }
    { code := Code.Wait, reasons := ["w"], err := none, pluginName := "" }
    (by intro p hp; cases hp) rfl rfl rfl (by decide) (by decide)

/-- Claim C5 as frozen is false on one point: the Unschedulable status is
not returned unmodified — the driver sets the failing plugin's name on it
before returning it. -/
theorem prefilter_unmodified_counterexample_c5 :
    RunPreFilterPlugins
        [{ name := "A",
           result := some { code := Code.Unschedulable, reasons := ["r"], err := none, pluginName := "" } }]
      ≠ some { code := Code.Unschedulable, reasons := ["r"], err := none, pluginName := "" } := by
  decide

theorem filterLoop_su (ps : List FilterPlugin)
    (h : ∀ pl ∈ ps, statusCode pl.result = Code.Success ∨ statusCode pl.result = Code.Unschedulable) :
    ∀ acc, filterLoop acc ps = acc ++ unschedEntries ps := by
  induction ps with
  | nil => intro acc; simp [filterLoop, unschedEntries]
  | cons pl t ih =>
    intro acc
    have hp := h pl (List.mem_cons_self _ _)
    have ht := fun q hq => h q (List.mem_cons_of_mem _ hq)
    cases hr : pl.result with
    | none =>
      simp only [filterLoop, unschedEntries, hr]
      exact ih ht acc
    | some s =>
      rw [hr] at hp
      simp only [statusCode] at hp
      rcases hp with hs | hs
      · simp only [filterLoop, unschedEntries, hr, if_pos hs]
        rw [if_neg (by rw [hs]; decide)]
        exact ih ht acc
      · have hns : ¬ s.code = Code.Success := by rw [hs]; decide
        have hnu : ¬ s.code ≠ Code.Unschedulable := by rw [hs]; simp
        simp only [filterLoop, unschedEntries, hr, if_neg hns, if_neg hnu, if_pos hs]
        rw [ih ht, List.append_assoc]
        rfl

theorem filterLoop_escalates (pre : List FilterPlugin)
    (hpre : ∀ pl ∈ pre, statusCode pl.result = Code.Success ∨ statusCode pl.result = Code.Unschedulable)
    (bad : FilterPlugin) (sb : Status) (hb : bad.result = some sb)
    (hb1 : sb.code ≠ Code.Success) (hb2 : sb.code ≠ Code.Unschedulable) :
    ∀ acc rest, filterLoop acc (pre ++ bad :: rest)
      = [(bad.name, { AsStatus (filterWrapMsg bad.name (statusErrMsg sb)) with pluginName := bad.name })] := by
  induction pre with
  | nil =>
    intro acc rest
    simp only [List.nil_append, filterLoop, hb, if_neg hb1, if_pos hb2]
  | cons pl t ih =>
    intro acc rest
    have hp := hpre pl (List.mem_cons_self _ _)
    have ht := fun q hq => hpre q (List.mem_cons_of_mem _ hq)
    rw [List.cons_append]
    cases hr : pl.result with
    | none =>
      simp only [filterLoop, hr]
      exact ih ht acc rest
    | some s =>
      rw [hr] at hp
      simp only [statusCode] at hp
      rcases hp with hs | hs
      · simp only [filterLoop, hr, if_pos hs]
        exact ih ht acc rest
      · have hns : ¬ s.code = Code.Success := by rw [hs]; decide
        have hnu : ¬ s.code ≠ Code.Unschedulable := by rw [hs]; simp
        simp only [filterLoop, hr, if_neg hns, if_neg hnu]
        exact ih ht _ rest

theorem filterLoop_eq_nil_iff (qs : List FilterPlugin) :
    ∀ acc, (filterLoop acc qs = [] ↔
      (acc = [] ∧ ∀ pl ∈ qs, statusCode pl.result = Code.Success)) := by
  induction qs with
  | nil => intro acc; simp [filterLoop]
  | cons pl t ih =>
    intro acc
    cases hr : pl.result with
    | none =>
      simp only [filterLoop, hr]
      rw [ih acc]
      simp [statusCode, hr, List.forall_mem_cons]
    | some s =>
      by_cases hs : s.code = Code.Success
      · simp only [filterLoop, hr, if_pos hs]
        rw [ih acc]
        simp [statusCode, hr, List.forall_mem_cons, hs]
      · by_cases hu : s.code = Code.Unschedulable
        · have hnu : ¬ s.code ≠ Code.Unschedulable := by rw [hu]; simp
          simp only [filterLoop, hr, if_neg hs, if_neg hnu]
          rw [ih]
          simp [statusCode, hr, List.forall_mem_cons, hs, List.append_eq_nil]
        · simp only [filterLoop, hr, if_neg hs, if_pos hu]
          simp [statusCode, hr, List.forall_mem_cons, hs]

/-- Claim C4: for one candidate pool, `RunFilterPlugins` records every
Unschedulable plugin (with its name set) and keeps going; the first plugin
returning any other non-success code makes it return immediately with a
single-entry map holding that plugin's status escalated to `Error`, the
remaining plugins skipped; and the returned map is empty exactly when
every plugin succeeded. -/
theorem run_filter_c4 (ps pre rest qs : List FilterPlugin) (bad : FilterPlugin) (sb : Status)
    (hps : ∀ pl ∈ ps, statusCode pl.result = Code.Success ∨ statusCode pl.result = Code.Unschedulable)
    (hpre : ∀ pl ∈ pre, statusCode pl.result = Code.Success ∨ statusCode pl.result = Code.Unschedulable)
    (hb : bad.result = some sb)
    (hb1 : sb.code ≠ Code.Success) (hb2 : sb.code ≠ Code.Unschedulable) :
    RunFilterPlugins ps = unschedEntries ps ∧
      RunFilterPlugins (pre ++ bad :: rest)
          = [(bad.name, { AsStatus (filterWrapMsg bad.name (statusErrMsg sb)) with pluginName := bad.name })] ∧
      ({ AsStatus (filterWrapMsg bad.name (statusErrMsg sb)) with pluginName := bad.name } : Status).code
          = Code.Error ∧
      (RunFilterPlugins qs = [] ↔ ∀ pl ∈ qs, statusCode pl.result = Code.Success) := by
  refine ⟨?_, ?_, rfl, ?_⟩
  · have h0 := filterLoop_su ps hps []
    simpa [RunFilterPlugins] using h0
  · exact filterLoop_escalates pre hpre bad sb hb hb1 hb2 [] rest
  · unfold RunFilterPlugins
    rw [filterLoop_eq_nil_iff qs []]
    simp

/-- Witness for C4 at concrete plugins. -/
theorem run_filter_c4_witness :
    RunFilterPlugins
        [{ name := "A", result := some { code := Code.Unschedulable, reasons := ["r"], err := none, pluginName := "" } }, { name := "B", result := none }]
      = unschedEntries
        [{ name := "A", result := some { code := Code.Unschedulable, reasons := ["r"], err := none, pluginName := "" } }, { name := "B", result := none }] ∧
      RunFilterPlugins
          ([{ name := "A", result := some { code := Code.Unschedulable, reasons := ["r"], err := none, pluginName := "" } }] ++ { name := "W", result := some { code := Code.Wait, reasons := ["w"], err := none, pluginName := "" } } :: [{ name := "B", result := none }])
        = [("W", { AsStatus (filterWrapMsg "W" (statusErrMsg { code := Code.Wait, reasons := ["w"], err := none, pluginName := "" })) with pluginName := "W" })] ∧
      ({ AsStatus (filterWrapMsg "W" (statusErrMsg { code := Code.Wait, reasons := ["w"], err := none, pluginName := "" })) with pluginName := "W" } : Status).code
        = Code.Error ∧
      (RunFilterPlugins [{ name := "C", result := none }] = [] ↔
        ∀ pl ∈ [({ name := "C", result := none } : FilterPlugin)], statusCode pl.result = Code.Success) :=
  run_filter_c4
    [{ name := "A", result := some { code := Code.Unschedulable, reasons := ["r"], err := none, pluginName := "" } }, { name := "B", result := none }]
    [{ name := "A", result := some { code := Code.Unschedulable, reasons := ["r"], err := none, pluginName := "" } }]
    [{ name := "B", result := none }]
    [{ name := "C", result := none }]
    { name := "W", result := some { code := Code.Wait, reasons := ["w"], err := none, pluginName := "" } }
    { code := Code.Wait, reasons := ["w"], err := none, pluginName := "" }
    (by decide) (by decide) rfl (by decide) (by decide)

theorem bindSkip_of_success (o : Option Status) (h : statusIsSuccess o = true) :
    bindSkip o = false := by
  cases o with
  | none => rfl
  | some s =>
    have hs : s.code = Code.Success := of_decide_eq_true h
    simp [bindSkip, hs]

theorem statusCode_of_bindSkip (o : Option Status) (h : bindSkip o = true) :
    statusCode o = Code.Skip := by
  cases o with
  | none => exact absurd h (by simp [bindSkip])
  | some s => exact of_decide_eq_true h

theorem bindLoop_skips (pre : List BindPlugin) (hpre : ∀ p ∈ pre, bindSkip p.result = true)
    (b : BindPlugin) (hb : bindSkip b.result = false) :
    ∀ prev rest, bindLoop prev (pre ++ b :: rest)
      = if statusIsSuccess b.result then b.result else some (bindErrStatus b b.result) := by
  induction pre with
  | nil =>
    intro prev rest
    simp only [List.nil_append, bindLoop, hb]
    rfl
  | cons p t ih =>
    intro prev rest
    have hp := hpre p (List.mem_cons_self _ _)
    rw [List.cons_append]
    simp only [bindLoop, hp]
    exact ih (fun q hq => hpre q (List.mem_cons_of_mem _ hq)) p.result rest

theorem bindLoop_all_skip (xs : List BindPlugin) (hxs : ∀ p ∈ xs, bindSkip p.result = true)
    (lastp : BindPlugin) (hlast : bindSkip lastp.result = true) :
    ∀ prev, bindLoop prev (xs ++ [lastp]) = lastp.result := by
  induction xs with
  | nil =>
    intro prev
    simp only [List.nil_append, bindLoop, hlast, if_true]
  | cons p t ih =>
    intro prev
    have hp := hxs p (List.mem_cons_self _ _)
    rw [List.cons_append]
    simp only [bindLoop, hp]
    exact ih (fun q hq => hxs q (List.mem_cons_of_mem _ hq)) p.result

/-- Claim C6: `RunBindPlugins` chains over `Skip`: a prefix of skipping
plugins is passed over and the first non-Skip plugin decides the stage —
its status returned as-is when it is a success, otherwise an `Error`
status wrapping the failure and naming the plugin in its message; when
every plugin skips, the returned status is the last plugin's `Skip`; and
an empty bind plugin list yields `NewStatus(Skip, "")`. -/
theorem run_bind_c6 (pre rest sk : List BindPlugin) (b c lastp : BindPlugin)
    (hpre : ∀ p ∈ pre, bindSkip p.result = true)
    (hsk : ∀ p ∈ sk, bindSkip p.result = true)
    (hlast : bindSkip lastp.result = true)
    (hb : statusIsSuccess b.result = true)
    (hc1 : bindSkip c.result = false) (hc2 : statusIsSuccess c.result = false) :
    RunBindPlugins (pre ++ b :: rest) = b.result ∧
      statusCode (RunBindPlugins (sk ++ [lastp])) = Code.Skip ∧
      RunBindPlugins (pre ++ c :: rest) = some (bindErrStatus c c.result) ∧
      (bindErrStatus c c.result).code = Code.Error ∧
      RunBindPlugins ([] : List BindPlugin) = some (NewStatus Code.Skip [""]) ∧
      (NewStatus Code.Skip [""]).code = Code.Skip := by
  refine ⟨?_, ?_, ?_, rfl, rfl, ?_⟩
  · rw [RunBindPlugins, if_neg (by simp),
      bindLoop_skips pre hpre b (bindSkip_of_success b.result hb), if_pos hb]
  · rw [RunBindPlugins, if_neg (by simp), bindLoop_all_skip sk hsk lastp hlast]
    exact statusCode_of_bindSkip _ hlast
  · rw [RunBindPlugins, if_neg (by simp), bindLoop_skips pre hpre c hc1,
      if_neg (by rw [hc2]; exact Bool.false_ne_true)]
  · rw [NewStatus_code]

/-- Witness for C6 at concrete plugins. -/
theorem run_bind_c6_witness :
    RunBindPlugins
        ([{ name := "S1", result := some { code := Code.Skip, reasons := [], err := none, pluginName := "" } }] ++ { name := "B", result := none } :: [])
      = ({ name := "B", result := none } : BindPlugin).result ∧
      statusCode (RunBindPlugins
        ([{ name := "S1", result := some { code := Code.Skip, reasons := [], err := none, pluginName := "" } }] ++ [{ name := "S2", result := some { code := Code.Skip, reasons := ["s2"], err := none, pluginName := "" } }]))
        = Code.Skip ∧
      RunBindPlugins
          ([{ name := "S1", result := some { code := Code.Skip, reasons := [], err := none, pluginName := "" } }] ++ { name := "C", result := some { code := Code.Wait, reasons := ["w"], err := none, pluginName := "" } } :: [])
        = some (bindErrStatus { name := "C", result := some { code := Code.Wait, reasons := ["w"], err := none, pluginName := "" } }
            ({ name := "C", result := some { code := Code.Wait, reasons := ["w"], err := none, pluginName := "" } } : BindPlugin).result) ∧
      (bindErrStatus { name := "C", result := some { code := Code.Wait, reasons := ["w"], err := none, pluginName := "" } }
          ({ name := "C", result := some { code := Code.Wait, reasons := ["w"], err := none, pluginName := "" } } : BindPlugin).result).code
        = Code.Error ∧
      RunBindPlugins ([] : List BindPlugin) = some (NewStatus Code.Skip [""]) ∧
      (NewStatus Code.Skip [""]).code = Code.Skip :=
  run_bind_c6
    [{ name := "S1", result := some { code := Code.Skip, reasons := [], err := none, pluginName := "" } }]
    []
    [{ name := "S1", result := some { code := Code.Skip, reasons := [], err := none, pluginName := "" } }]
    { name := "B", result := none }
    { name := "C", result := some { code := Code.Wait, reasons := ["w"], err := none, pluginName := "" } }
    { name := "S2", result := some { code := Code.Skip, reasons := ["s2"], err := none, pluginName := "" } }
    (by decide) (by decide) (by decide) (by decide) (by decide) (by decide)

/-! ## Lemmas for the CycleState heap model -/

theorem getD_set_self {β : Type} (l : List β) : ∀ (i : Nat) (c d : β), i < l.length →
    (l.set i c).getD i d = c := by
  induction l with
  | nil => intro i c d h; exact absurd h (by simp)
  | cons x t ih =>
    intro i c d h
    cases i with
    | zero => rfl
    | succ j => exact ih j c d (by simpa using h)

theorem getD_set_ne {β : Type} (l : List β) : ∀ (i j : Nat) (c d : β), i ≠ j →
    (l.set i c).getD j d = l.getD j d := by
  induction l with
  | nil => intro i j c d _; rfl
  | cons x t ih =>
    intro i j c d hne
    cases i with
    | zero =>
      cases j with
      | zero => exact absurd rfl hne
      | succ j2 => rfl
    | succ i2 =>
      cases j with
      | zero => rfl
      | succ j2 => exact ih i2 j2 c d (fun hx => hne (by rw [hx]))

theorem getD_append_lt {β : Type} (l l2 : List β) : ∀ (i : Nat) (d : β), i < l.length →
    (l ++ l2).getD i d = l.getD i d := by
  induction l with
  | nil => intro i d h; exact absurd h (by simp)
  | cons x t ih =>
    intro i d h
    cases i with
    | zero => rfl
    | succ j => exact ih j d (by simpa using h)

theorem getD_concat_len {β : Type} (l : List β) (x d : β) :
    (l ++ [x]).getD l.length d = x := by
  induction l with
  | nil => rfl
  | cons y t ih => exact ih

theorem getD_concat_ne {β : Type} (l : List β) (x : β) : ∀ (i : Nat) (d : β), i ≠ l.length →
    (l ++ [x]).getD i d = l.getD i d := by
  induction l with
  | nil =>
    intro i d h
    cases i with
    | zero => exact absurd rfl h
    | succ j => rfl
  | cons y t ih =>
    intro i d h
    cases i with
    | zero => rfl
    | succ j => exact ih j d (fun hx => h (by rw [hx]; rfl))

theorem mapRead_mapWrite_self {α : Type} : ∀ (m : StateStorage α) (k : StateKey) (v : α),
    mapRead (mapWrite m k v) k = some v := by
  intro m
  induction m with
  | nil => intro k v; simp [mapWrite, mapRead]
  | cons e t ih =>
    intro k v
    by_cases he : e.1 = k
    · simp [mapWrite, mapRead, he]
    · simp only [mapWrite, if_neg he, mapRead, if_neg he]
      exact ih k v

theorem mapRead_mapWrite_ne {α : Type} : ∀ (m : StateStorage α) (k k2 : StateKey) (v : α),
    k2 ≠ k → mapRead (mapWrite m k v) k2 = mapRead m k2 := by
  intro m
  induction m with
  | nil =>
    intro k k2 v h
    simp only [mapWrite, mapRead]
    rw [if_neg (Ne.symm h)]
  | cons e t ih =>
    intro k k2 v h
    by_cases he : e.1 = k
    · simp only [mapWrite, if_pos he, mapRead]
      rw [if_neg (Ne.symm h), if_neg (show ¬ e.1 = k2 by rw [he]; exact Ne.symm h)]
    · simp only [mapWrite, if_neg he, mapRead]
      by_cases he2 : e.1 = k2
      · rw [if_pos he2, if_pos he2]
      · rw [if_neg he2, if_neg he2]
        exact ih k k2 v h

theorem mapRead_eq_none_of_not_mem {α : Type} : ∀ (m : StateStorage α) (k : StateKey),
    k ∉ m.map Prod.fst → mapRead m k = none := by
  intro m
  induction m with
  | nil => intro k _; rfl
  | cons e t ih =>
    intro k h
    rw [List.map_cons, List.mem_cons] at h
    push_neg at h
    rw [mapRead, if_neg (fun hx => h.1 hx.symm)]
    exact ih k h.2

theorem mapRead_foldWrite {α : Type} (cl : α → α) :
    ∀ (entries : StateStorage α) (acc : StateStorage α) (k : StateKey),
      (entries.map Prod.fst).Nodup →
      mapRead (entries.foldl (fun m e => mapWrite m e.1 (cl e.2)) acc) k
        = (mapRead entries k).elim (mapRead acc k) (fun v => some (cl v)) := by
  intro entries
  induction entries with
  | nil => intro acc k _; rfl
  | cons e t ih =>
    intro acc k hnd
    rw [List.map_cons, List.nodup_cons] at hnd
    rw [List.foldl_cons, ih _ k hnd.2, mapRead]
    by_cases he : e.1 = k
    · rw [if_pos he]
      have hnone : mapRead t k = none := by
        apply mapRead_eq_none_of_not_mem
        rw [← he]
        exact hnd.1
      rw [hnone]
      subst he
      simp [Option.elim, mapRead_mapWrite_self]
    · rw [if_neg he]
      cases hmt : mapRead t k with
      | some v => simp [Option.elim]
      | none =>
        simp only [Option.elim]
        exact mapRead_mapWrite_ne acc e.1 k (cl e.2) (fun hx => he hx.symm)

theorem csWrite_cells_length {α : Type} (h : CSHeap α) (r : Nat) (k : StateKey) (v : α) :
    (csWrite h r k v).cells.length = h.cells.length := by
  simp [csWrite, setCell]

theorem foldWrite_getCell_ne {α : Type} (cl : α → α) (rw rd : Nat) (hne : rd ≠ rw) :
    ∀ (entries : StateStorage α) (hh : CSHeap α),
      getCell ((entries.foldl (fun hh2 e => csWrite hh2 rw e.1 (cl e.2)) hh)) rd
        = getCell hh rd := by
  intro entries
  induction entries with
  | nil => intro hh; rfl
  | cons e t ih =>
    intro hh
    rw [List.foldl_cons, ih]
    show (hh.cells.set rw _).getD rd [] = hh.cells.getD rd []
    exact getD_set_ne hh.cells rw rd _ [] (fun hx => hne hx.symm)

theorem foldWrite_getCell_eq {α : Type} (cl : α → α) (rw : Nat) :
    ∀ (entries : StateStorage α) (hh : CSHeap α), rw < hh.cells.length →
      getCell ((entries.foldl (fun hh2 e => csWrite hh2 rw e.1 (cl e.2)) hh)) rw
        = entries.foldl (fun m e => mapWrite m e.1 (cl e.2)) (getCell hh rw) := by
  intro entries
  induction entries with
  | nil => intro hh _; rfl
  | cons e t ih =>
    intro hh hlt
    rw [List.foldl_cons, List.foldl_cons,
      ih (csWrite hh rw e.1 (cl e.2)) (by rw [csWrite_cells_length]; exact hlt)]
    congr 1
    show (hh.cells.set rw _).getD rw [] = _
    exact getD_set_self hh.cells rw _ [] hlt

theorem csClone_ref {α : Type} (cl : α → α) (h : CSHeap α) (r : Nat) :
    (csClone cl h r).2 = h.cells.length := rfl

theorem csClone_read {α : Type} (cl : α → α) (h : CSHeap α) (r : Nat) (k : StateKey)
    (hnd : ((getCell h r).map Prod.fst).Nodup) :
    csRead (csClone cl h r).1 (csClone cl h r).2 k = (csRead h r k).map cl := by
  unfold csClone NewCycleState csRead
  dsimp only
  rw [foldWrite_getCell_eq cl h.cells.length (getCell h r)
      { cells := h.cells ++ [[]] } (by simp),
    mapRead_foldWrite cl (getCell h r) _ k hnd]
  have hnew : getCell ({ cells := h.cells ++ [[]] } : CSHeap α) h.cells.length = [] := by
    show (h.cells ++ [[]]).getD h.cells.length [] = []
    exact getD_concat_len h.cells [] []
  rw [hnew]
  cases mapRead (getCell h r) k <;> rfl

theorem csClone_preserves {α : Type} (cl : α → α) (h : CSHeap α) (r rd : Nat)
    (hne : rd ≠ h.cells.length) :
    getCell (csClone cl h r).1 rd = getCell h rd := by
  unfold csClone NewCycleState
  dsimp only
  rw [foldWrite_getCell_ne cl h.cells.length rd hne]
  show (h.cells ++ [[]]).getD rd [] = h.cells.getD rd []
  exact getD_concat_ne h.cells [] rd [] hne

/-- Claim C8: `Clone` produces a state in which every stored value is
replaced by its own clone (`Read` on the clone returns the cloned original
value), the clone is a freshly allocated cell and the original is
untouched, and writes to either state after cloning do not change what the
other's `Read` returns. -/
theorem cycle_state_clone_c8 {α : Type} (cl : α → α) (h : CSHeap α) (r : Nat) (k : StateKey)
    (v w : α) (hr : r < h.cells.length)
    (hnd : ((getCell h r).map Prod.fst).Nodup) :
    csRead (csClone cl h r).1 (csClone cl h r).2 k = (csRead h r k).map cl ∧
      csRead (csClone cl h r).1 r k = csRead h r k ∧
      csRead (csWrite (csClone cl h r).1 r k v) (csClone cl h r).2 k
          = csRead (csClone cl h r).1 (csClone cl h r).2 k ∧
      csRead (csWrite (csClone cl h r).1 (csClone cl h r).2 k w) r k
          = csRead (csClone cl h r).1 r k := by
  have hrne : r ≠ h.cells.length := Nat.ne_of_lt hr
  refine ⟨csClone_read cl h r k hnd, ?_, ?_, ?_⟩
  · unfold csRead
    rw [csClone_preserves cl h r r hrne]
  · unfold csRead
    congr 1
    show ((csClone cl h r).1.cells.set r _).getD (csClone cl h r).2 [] = _
    rw [csClone_ref]
    exact getD_set_ne _ r h.cells.length _ [] hrne
  · unfold csRead
    congr 1
    show ((csClone cl h r).1.cells.set (csClone cl h r).2 _).getD r [] = _
    rw [csClone_ref]
    exact getD_set_ne _ h.cells.length r _ [] (fun hx => hrne hx.symm)

/-- Witness for C8 on a one-cell heap holding one entry. -/
theorem cycle_state_clone_c8_witness :
    csRead (csClone Nat.succ { cells := [[("k", 5)]] } 0).1 (csClone Nat.succ { cells := [[("k", 5)]] } 0).2 "k"
        = (csRead { cells := [[("k", 5)]] } 0 "k").map Nat.succ ∧
      csRead (csClone Nat.succ { cells := [[("k", 5)]] } 0).1 0 "k"
        = csRead { cells := [[("k", 5)]] } 0 "k" ∧
      csRead (csWrite (csClone Nat.succ { cells := [[("k", 5)]] } 0).1 0 "k" 7) (csClone Nat.succ { cells := [[("k", 5)]] } 0).2 "k"
        = csRead (csClone Nat.succ { cells := [[("k", 5)]] } 0).1 (csClone Nat.succ { cells := [[("k", 5)]] } 0).2 "k" ∧
      csRead (csWrite (csClone Nat.succ { cells := [[("k", 5)]] } 0).1 (csClone Nat.succ { cells := [[("k", 5)]] } 0).2 "k" 9) 0 "k"
        = csRead (csClone Nat.succ { cells := [[("k", 5)]] } 0).1 0 "k" :=
  cycle_state_clone_c8 Nat.succ { cells := [[("k", 5)]] } 0 "k" 7 9 (by decide) (by decide)

end VolumeScheduler
